import Mathlib

/-!
Shallow embedding of `pkg/helm/release/manager.go` (the Helm release manager
of the operator-sdk): the release data model, the error taxonomy used by the
code (`notFoundErr`, `driver.ErrReleaseNotFound`, `fmt.Errorf` wrapping), and
the operations `Sync`, `InstallRelease`, `UpdateRelease`, `UninstallRelease`,
`reconcileRelease` and `generatePatch`.

External collaborators (the Helm storage backend, the Helm action engine, the
Kubernetes client, `encoding/json` and the jsonpatch library) are modelled as
oracle records of pure functions; the manager's own control flow is translated
from the Go source.  Go pointers become `Option`, Go `error` becomes
`Option HelmError` (`none` = nil), and a Go nil-pointer dereference becomes
the `GoResult.panics` outcome.
-/

namespace HelmRelease

/-- Release lifecycle status (`helm.sh/helm/v3/pkg/release.Status`). -/
inductive Status where
  | unknown
  | deployed
  | uninstalled
  | superseded
  | failed
  | uninstalling
  | pendingInstall
  | pendingUpgrade
  | pendingRollback
  deriving DecidableEq, Repr

/-- The `Info` block of a release (`rpb.Release.Info`); only the status field
is read by the manager code. -/
structure Info where
  status : Status
  deriving DecidableEq, Repr

/-- A Helm release record (`rpb.Release`): name, revision number, rendered
manifest text, and an optional info block (`Info` is a pointer in Go). -/
structure Release where
  name : String
  version : Nat
  manifest : String
  info : Option Info
  deriving DecidableEq, Repr

/-- Checks whether `pat` occurs at the start of `hay` (character lists). -/
def leadsWith : List Char → List Char → Bool
  | [], _ => true
  | _ :: _, [] => false
  | p :: ps, c :: cs => p == c && leadsWith ps cs

/-- Checks whether `pat` occurs contiguously anywhere inside `hay`
(character lists); the model of Go's `strings.Contains`. -/
def containsChars : List Char → List Char → Bool
  | [], pat => pat.isEmpty
  | c :: rest, pat => leadsWith pat (c :: rest) || containsChars rest pat

/-- Go's `strings.Contains s pat`. -/
def strContains (s pat : String) : Bool :=
  containsChars s.toList pat.toList

/-- Errors flowing through the manager.  `releaseNotFound` is the sentinel
`driver.ErrReleaseNotFound`; `external` is an opaque collaborator error
carrying its `Error()` text; `wrapped ctx e` is `fmt.Errorf(ctx ++ ": %w", e)`;
`formatted` is a `fmt.Errorf` with no `%w` verb; `combined pre a mid b` is
`fmt.Errorf(pre ++ "%s" ++ mid ++ "%w", a, b)`; `apiNotFound` is a Kubernetes
API StatusError with reason NotFound (recognised by `apierrors.IsNotFound`). -/
inductive HelmError where
  | releaseNotFound
  | external (msg : String)
  | wrapped (ctx : String) (inner : HelmError)
  | formatted (msg : String)
  | combined (pre : String) (first : HelmError) (mid : String) (second : HelmError)
  | apiNotFound (msg : String)
  deriving DecidableEq, Repr

/-- The `Error()` string of an error.  `driver.ErrReleaseNotFound` renders as
"release: not found". -/
def HelmError.text : HelmError → String
  | .releaseNotFound => "release: not found"
  | .external msg => msg
  | .wrapped ctx inner => ctx ++ ": " ++ inner.text
  | .formatted msg => msg
  | .combined pre first mid second => pre ++ first.text ++ mid ++ second.text
  | .apiNotFound msg => msg

/-- Go's `errors.Is(err, driver.ErrReleaseNotFound)`: unwraps the `%w` chain
and compares with the sentinel. -/
def errorsIsReleaseNotFound : HelmError → Bool
  | .releaseNotFound => true
  | .wrapped _ inner => errorsIsReleaseNotFound inner
  | .combined _ _ _ second => errorsIsReleaseNotFound second
  | _ => false

/-- Source `notFoundErr`: `err != nil && strings.Contains(err.Error(), "not found")`. -/
def notFoundErr : Option HelmError → Bool
  | none => false
  | some e => strContains e.text "not found"

/-- Go's `apierrors.IsNotFound(err)` (false on nil). -/
def apierrorsIsNotFound : Option HelmError → Bool
  | some (.apiNotFound _) => true
  | _ => false

/-- The response of `action.Uninstall.Run`
(`release.UninstallReleaseResponse`, a pointer in Go). -/
structure UninstallReleaseResponse where
  release : Option Release
  deriving DecidableEq, Repr

/-- External collaborators of the manager: the Helm storage backend
(`History`, `Delete`, `Deployed`) and the Helm action engine
(`upgrade.Run` in dry-run and real mode, `install.Run`, `rollback.Run`,
`uninstall.Run`).  The chart and values held by the manager are opaque, so
engine calls are parameterised only by the arguments the source passes
explicitly (namespace, release name, and the rollback force flag). -/
structure ActionEnv where
  History : String → List Release × Option HelmError
  Delete : String → Nat → Option Release × Option HelmError
  Deployed : String → Option Release × Option HelmError
  UpgradeDryRun : String → String → Option Release × Option HelmError
  UpgradeRun : String → String → Option Release × Option HelmError
  InstallRun : String → String → Option Release × Option HelmError
  RollbackRun : String → Bool → Option HelmError
  UninstallRun : String → Option UninstallReleaseResponse × Option HelmError

/-- The mutable manager state (`manager` struct fields read or written by the
operations under study). -/
structure ManagerState where
  releaseName : String
  namespaceName : String
  isInstalled : Bool
  isUpdateRequired : Bool
  deployedRelease : Option Release
  deriving DecidableEq, Repr

/-- Outcome of running a Go function body: either it returns a value or it
panics (nil-pointer dereference). -/
inductive GoResult (α : Type) where
  | ok (a : α)
  | panics (msg : String)
  deriving DecidableEq, Repr

/-- Source `getDeployedRelease`: queries `storageBackend.Deployed`; an error
whose text contains "has no deployed releases" is converted to the sentinel
`driver.ErrReleaseNotFound`, any other error is returned as is. -/
def getDeployedRelease (env : ActionEnv) (releaseName : String) :
    Option Release × Option HelmError :=
  match env.Deployed releaseName with
  | (_, some e) =>
    if strContains e.text "has no deployed releases" then
      (none, some HelmError.releaseNotFound)
    else (none, some e)
  | (dr, none) => (dr, none)

/-- The loop guard of Sync's cleanup loop:
`rel.Info != nil && rel.Info.Status != rpb.StatusDeployed`. -/
def nonDeployed (rel : Release) : Bool :=
  match rel.info with
  | some i => i.status != Status.deployed
  | none => false

/-- Sync's cleanup loop over the fetched history: for every revision whose
info is present and whose status is not deployed, issue a storage `Delete`;
a delete error that is not a `notFoundErr` aborts with a wrapped error.
Returns the list of issued `Delete` calls (name, version) and the loop's
error outcome. -/
def pruneReleases (env : ActionEnv) :
    List Release → List (String × Nat) × Option HelmError
  | [] => ([], none)
  | rel :: rest =>
    if nonDeployed rel then
      match env.Delete rel.name rel.version with
      | (_, some e) =>
        if notFoundErr (some e) then
          let r := pruneReleases env rest
          ((rel.name, rel.version) :: r.1, r.2)
        else
          ([(rel.name, rel.version)],
            some (HelmError.wrapped "failed to delete stale release version" e))
      | (_, none) =>
        let r := pruneReleases env rest
        ((rel.name, rel.version) :: r.1, r.2)
    else pruneReleases env rest

/-- Observable outcome of a `Sync` pass: the storage `Delete` calls issued,
whether the candidate dry-run render was attempted, and the returned
(state, error) pair (or a panic). -/
structure SyncOutcome where
  deletes : List (String × Nat)
  dryRunCalled : Bool
  result : GoResult (ManagerState × Option HelmError)
  deriving DecidableEq, Repr

/-- Body of `Sync` after the history fetch: prune stale revisions, load the
deployed release (a `driver.ErrReleaseNotFound` outcome returns nil early),
record it in the state, dry-run render the candidate, and set
`isUpdateRequired` when the two manifests differ.  Dereferencing a nil
deployed or candidate release panics, as in Go. -/
def syncAfterHistory (env : ActionEnv) (m : ManagerState)
    (releases : List Release) : SyncOutcome :=
  match pruneReleases env releases with
  | (calls, some e) => ⟨calls, false, GoResult.ok (m, some e)⟩
  | (calls, none) =>
    match getDeployedRelease env m.releaseName with
    | (_, some e) =>
      if errorsIsReleaseNotFound e then ⟨calls, false, GoResult.ok (m, none)⟩
      else
        ⟨calls, false,
          GoResult.ok (m, some (HelmError.wrapped "failed to get deployed release" e))⟩
    | (dr, none) =>
      let m1 := { m with deployedRelease := dr, isInstalled := true }
      match env.UpgradeDryRun m.namespaceName m.releaseName with
      | (_, some e) =>
        ⟨calls, true,
          GoResult.ok (m1, some (HelmError.wrapped "failed to get candidate release" e))⟩
      | (cand, none) =>
        match dr, cand with
        | some d, some cd =>
          ⟨calls, true,
            GoResult.ok
              (if d.manifest != cd.manifest then { m1 with isUpdateRequired := true }
               else m1, none)⟩
        | _, _ => ⟨calls, true, GoResult.panics "nil pointer dereference"⟩

/-- Source `Sync`: fetch the release history (a `notFoundErr` from the fetch
is tolerated), then continue with `syncAfterHistory`. -/
def Sync (env : ActionEnv) (m : ManagerState) : SyncOutcome :=
  match env.History m.releaseName with
  | (releases, some e) =>
    if notFoundErr (some e) then syncAfterHistory env m releases
    else
      ⟨[], false,
        GoResult.ok (m, some (HelmError.wrapped "failed to retrieve release history" e))⟩
  | (releases, none) => syncAfterHistory env m releases

/-- Observable outcome of `InstallRelease`: whether the compensating
uninstall was attempted, and the returned (release, error) pair. -/
structure InstallOutcome where
  uninstallAttempted : Bool
  release : Option Release
  error : Option HelmError
  deriving DecidableEq, Repr

/-- Source `InstallRelease`: run the install; on error with a non-nil partial
release, attempt a compensating uninstall (helm/helm#3338 workaround).  An
uninstall failure that is not a `notFoundErr` is escalated as a combined
error; otherwise only the wrapped install error is returned. -/
def InstallRelease (env : ActionEnv) (m : ManagerState) : InstallOutcome :=
  match env.InstallRun m.namespaceName m.releaseName with
  | (installedRelease, none) => ⟨false, installedRelease, none⟩
  | (installedRelease, some e) =>
    match installedRelease with
    | some _ =>
      match (env.UninstallRun m.releaseName).2 with
      | some uninstallErr =>
        if notFoundErr (some uninstallErr) then
          ⟨true, none, some (HelmError.wrapped "failed to install release" e)⟩
        else
          ⟨true, none,
            some (HelmError.combined "failed installation (" e
              ") and failed rollback: " uninstallErr)⟩
      | none => ⟨true, none, some (HelmError.wrapped "failed to install release" e)⟩
    | none => ⟨false, none, some (HelmError.wrapped "failed to install release" e)⟩

/-- Observable outcome of `UpdateRelease`: the rollback call issued, if any
(release name and the force flag), and the returned
(previous release, updated release, error) triple. -/
structure UpdateOutcome where
  rollbackCall : Option (String × Bool)
  previous : Option Release
  updated : Option Release
  error : Option HelmError
  deriving DecidableEq, Repr

/-- Source `UpdateRelease`: run the upgrade; on error with a non-nil partial
release, run a forced rollback (helm/helm#3338 workaround).  Any rollback
failure is escalated as a combined error; on rollback success the wrapped
update error is returned with nil releases.  On upgrade success the
previously deployed release and the updated release are returned. -/
def UpdateRelease (env : ActionEnv) (m : ManagerState) : UpdateOutcome :=
  match env.UpgradeRun m.namespaceName m.releaseName with
  | (updatedRelease, none) => ⟨none, m.deployedRelease, updatedRelease, none⟩
  | (updatedRelease, some e) =>
    match updatedRelease with
    | some _ =>
      match env.RollbackRun m.releaseName true with
      | some rollbackErr =>
        ⟨some (m.releaseName, true), none, none,
          some (HelmError.combined "failed update (" e
            ") and failed rollback: " rollbackErr)⟩
      | none =>
        ⟨some (m.releaseName, true), none, none,
          some (HelmError.wrapped "failed to update release" e)⟩
    | none =>
      ⟨none, none, none, some (HelmError.wrapped "failed to update release" e)⟩

/-- Observable outcome of `UninstallRelease`: whether the engine's uninstall
mutation was called, and the returned (release, error) pair or a panic. -/
structure UninstallOutcome where
  mutationCalled : Bool
  result : GoResult (Option Release × Option HelmError)
  deriving DecidableEq, Repr

/-- Source `UninstallRelease`: fetch the history (any fetch error is
returned wrapped); an empty history returns `driver.ErrReleaseNotFound`
without calling the engine; otherwise the uninstall mutation runs and its
response is dereferenced unconditionally (`uninstallResponse.Release`),
panicking when the response is nil. -/
def UninstallRelease (env : ActionEnv) (m : ManagerState) : UninstallOutcome :=
  match env.History m.releaseName with
  | (_, some e) =>
    ⟨false,
      GoResult.ok (none, some (HelmError.wrapped "failed to get release history" e))⟩
  | (h, none) =>
    if h.length == 0 then
      ⟨false, GoResult.ok (none, some HelmError.releaseNotFound)⟩
    else
      match env.UninstallRun m.releaseName with
      | (some resp, err) => ⟨true, GoResult.ok (resp.release, err)⟩
      | (none, _) => ⟨true, GoResult.panics "nil pointer dereference"⟩

/-- One RFC 6902 operation as produced by `jsonpatch.CreatePatch`
(`jsonpatch.JsonPatchOperation`); the value, when present, is kept as its
serialized form. -/
structure JsonPatchOperation where
  operation : String
  path : String
  value : Option String
  deriving DecidableEq, Repr

/-- The external serialization machinery used by `generatePatch`:
`json.Marshal` on objects (`Obj` is the opaque object type; a nil Go
interface is `none`), `jsonpatch.CreatePatch` on the two JSON documents,
and `json.Marshal` on the filtered operation list. -/
structure JsonLib (Obj : Type) where
  marshalObj : Option Obj → Except HelmError String
  createPatch : String → String → Except HelmError (List JsonPatchOperation)
  marshalOps : List JsonPatchOperation → Except HelmError String

/-- Source `generatePatch`: marshal both objects, compute the full jsonpatch
diff, drop every "remove" operation, return nil when no operation remains,
and otherwise marshal the kept operations.  The first component is the
returned patch bytes (`none` = nil), the second the returned error. -/
def generatePatch {Obj : Type} (lib : JsonLib Obj)
    (existing expected : Option Obj) : Option String × Option HelmError :=
  match lib.marshalObj existing with
  | Except.error err => (none, some err)
  | Except.ok existingJSON =>
    match lib.marshalObj expected with
    | Except.error err => (none, some err)
    | Except.ok expectedJSON =>
      match lib.createPatch existingJSON expectedJSON with
      | Except.error err => (none, some err)
      | Except.ok ops =>
        let patchOps := ops.filter (fun op => op.operation != "remove")
        if patchOps.length == 0 then (none, none)
        else
          match lib.marshalOps patchOps with
          | Except.error err => (none, some err)
          | Except.ok bytes => (some bytes, none)

/-- One resource descriptor produced by `kubeClient.Build`
(`resource.Info`): namespace, name, and the expected object. -/
structure ResourceInfo (Obj : Type) where
  namespaceName : String
  name : String
  object : Option Obj

/-- The Kubernetes-facing collaborators of `reconcileRelease`: `Build` on the
manifest text, the per-object `Get`, `Create` and `Patch` helpers, and the
serialization machinery consumed by `generatePatch`. -/
structure KubeEnv (Obj : Type) where
  build : String → Except HelmError (List (ResourceInfo Obj))
  get : String → String → Option Obj × Option HelmError
  create : String → String → Option Obj → Option HelmError
  patch : String → String → String → Option HelmError
  jsonLib : JsonLib Obj

/-- Observable outcome of `reconcileRelease`: the (namespace, name) pairs of
the issued `Create` calls and of the issued `Patch` calls, in order, and the
returned error. -/
structure ReconcileOutcome where
  creates : List (String × String)
  patches : List (String × String)
  error : Option HelmError
  deriving DecidableEq, Repr

/-- The visitor body of `reconcileRelease`, folded over the built resource
list (the visit stops at the first error): fetch the live object; a NotFound
triggers a `Create` (a create error is formatted with "create error: %s");
any other fetch error aborts; otherwise compute the patch, skip on nil, and
issue a `Patch` (a patch error is wrapped with "patch error: %w"). -/
def visitInfos {Obj : Type} (env : KubeEnv Obj) :
    List (ResourceInfo Obj) → ReconcileOutcome
  | [] => ⟨[], [], none⟩
  | expected :: rest =>
    let existing := (env.get expected.namespaceName expected.name).1
    let gerr := (env.get expected.namespaceName expected.name).2
    if apierrorsIsNotFound gerr then
        match env.create expected.namespaceName expected.name expected.object with
        | some cerr =>
          ⟨[(expected.namespaceName, expected.name)], [],
            some (HelmError.formatted ("create error: " ++ cerr.text))⟩
        | none =>
          let r := visitInfos env rest
          ⟨(expected.namespaceName, expected.name) :: r.creates, r.patches, r.error⟩
      else
        match gerr with
        | some e => ⟨[], [], some e⟩
        | none =>
          match generatePatch env.jsonLib existing expected.object with
          | (_, some perr) =>
            ⟨[], [],
              some (HelmError.wrapped "failed to marshal JSON patch" perr)⟩
          | (none, none) =>
            visitInfos env rest
          | (some patchBytes, none) =>
            match env.patch expected.namespaceName expected.name patchBytes with
            | some perr =>
              ⟨[], [(expected.namespaceName, expected.name)],
                some (HelmError.wrapped "patch error" perr)⟩
            | none =>
              let r := visitInfos env rest
              ⟨r.creates, (expected.namespaceName, expected.name) :: r.patches, r.error⟩

/-- Source `reconcileRelease`: build the resource list from the expected
manifest (a build error is returned directly) and visit each object in
order. -/
def reconcileRelease {Obj : Type} (env : KubeEnv Obj)
    (expectedManifest : String) : ReconcileOutcome :=
  match env.build expectedManifest with
  | Except.error e => ⟨[], [], some e⟩
  | Except.ok expectedInfos => visitInfos env expectedInfos

/-! Concrete collaborator environments used to exercise the definitions. -/

/-- A quiescent environment: empty history and all calls succeeding with nil
results. -/
def baseEnv : ActionEnv :=
  ⟨fun _ => ([], none), fun _ _ => (none, none), fun _ => (none, none),
   fun _ _ => (none, none), fun _ _ => (none, none), fun _ _ => (none, none),
   fun _ _ => none, fun _ => (none, none)⟩

/-- A fresh manager state for release "demo" in namespace "ns". -/
def demoState : ManagerState := ⟨"demo", "ns", false, false, none⟩

/-- A deployed revision of release "demo". -/
def demoRel : Release := ⟨"demo", 1, "manifest-a", some ⟨Status.deployed⟩⟩

/-- C8: when the store's History returns an empty sequence and no error,
UninstallRelease returns the distinguished release-not-found error without
calling the mutation engine's uninstall operation. -/
theorem uninstall_empty_history_returns_not_found
    (env : ActionEnv) (m : ManagerState)
    (hh : env.History m.releaseName = ([], none)) :
    UninstallRelease env m =
      ⟨false, GoResult.ok (none, some HelmError.releaseNotFound)⟩ := by
  unfold UninstallRelease
  rw [hh]
  rfl

/-- Witness for C8 at the quiescent environment. -/
theorem uninstall_empty_history_returns_not_found_witness :
    UninstallRelease baseEnv demoState =
      ⟨false, GoResult.ok (none, some HelmError.releaseNotFound)⟩ :=
  uninstall_empty_history_returns_not_found baseEnv demoState rfl

/-- C10: past the empty-history check, the uninstall mutation's response is
dereferenced unconditionally: a nil response makes UninstallRelease panic
(regardless of the accompanying error, which never reaches the error
return), and with a non-nil response the final return is the response's
release together with the mutation's error. -/
theorem uninstall_response_deref_unguarded
    (env : ActionEnv) (m : ManagerState) (h : List Release)
    (hh : env.History m.releaseName = (h, none)) (hne : h ≠ []) :
    (∀ ue, env.UninstallRun m.releaseName = (none, ue) →
        UninstallRelease env m = ⟨true, GoResult.panics "nil pointer dereference"⟩)
    ∧ (∀ resp err, env.UninstallRun m.releaseName = (some resp, err) →
        UninstallRelease env m = ⟨true, GoResult.ok (resp.release, err)⟩) := by
  obtain ⟨a, t, rfl⟩ := List.exists_cons_of_ne_nil hne
  refine ⟨?_, ?_⟩
  · intro ue hu
    unfold UninstallRelease
    rw [hh, hu]
    rfl
  · intro resp err hu
    unfold UninstallRelease
    rw [hh, hu]
    rfl

/-- Environment for the C10 witness: one revision in history, uninstall
mutation responding nil with a transport error. -/
def envNilUninstall : ActionEnv :=
  ⟨fun _ => ([demoRel], none), fun _ _ => (none, none), fun _ => (none, none),
   fun _ _ => (none, none), fun _ _ => (none, none), fun _ _ => (none, none),
   fun _ _ => none, fun _ => (none, some (HelmError.external "transport failure"))⟩

/-- Witness for C10: the nil-response-with-error case panics. -/
theorem uninstall_response_deref_unguarded_witness :
    UninstallRelease envNilUninstall demoState =
      ⟨true, GoResult.panics "nil pointer dereference"⟩ :=
  (uninstall_response_deref_unguarded envNilUninstall demoState [demoRel] rfl
    (by decide)).1 (some (HelmError.external "transport failure")) rfl

/-- C2: when the install mutation returns a non-nil partial release together
with an error, InstallRelease attempts a compensating uninstall; an
uninstall success or a release-not-found uninstall failure yields only the
wrapped original install error, while any other uninstall failure yields a
combined error referencing both failures. -/
theorem install_partial_failure_compensation
    (env : ActionEnv) (m : ManagerState) (r : Release) (e : HelmError)
    (hi : env.InstallRun m.namespaceName m.releaseName = (some r, some e)) :
    ((env.UninstallRun m.releaseName).2 = none →
        InstallRelease env m =
          ⟨true, none, some (HelmError.wrapped "failed to install release" e)⟩)
    ∧ (∀ ue, (env.UninstallRun m.releaseName).2 = some ue →
        notFoundErr (some ue) = true →
        InstallRelease env m =
          ⟨true, none, some (HelmError.wrapped "failed to install release" e)⟩)
    ∧ (∀ ue, (env.UninstallRun m.releaseName).2 = some ue →
        notFoundErr (some ue) = false →
        InstallRelease env m =
          ⟨true, none,
            some (HelmError.combined "failed installation (" e
              ") and failed rollback: " ue)⟩) := by
  refine ⟨?_, ?_, ?_⟩
  · intro hu
    unfold InstallRelease
    rw [hi, hu]
  · intro ue hu hnf
    unfold InstallRelease
    rw [hi, hu]
    simp [hnf]
  · intro ue hu hnf
    unfold InstallRelease
    rw [hi, hu]
    simp [hnf]

/-- Environment for the C2 witness: install fails with a partial release,
and the compensating uninstall fails with a release-not-found message. -/
def envInstallNotFound : ActionEnv :=
  ⟨fun _ => ([], none), fun _ _ => (none, none), fun _ => (none, none),
   fun _ _ => (none, none), fun _ _ => (none, none),
   fun _ _ => (some demoRel, some (HelmError.external "render failed")),
   fun _ _ => none,
   fun _ => (none, some (HelmError.external "uninstall: release: not found"))⟩

/-- Witness for C2: the not-found compensating-uninstall failure is
swallowed and only the original install error is returned. -/
theorem install_partial_failure_compensation_witness :
    InstallRelease envInstallNotFound demoState =
      ⟨true, none,
        some (HelmError.wrapped "failed to install release"
          (HelmError.external "render failed"))⟩ :=
  (install_partial_failure_compensation envInstallNotFound demoState demoRel
    (HelmError.external "render failed") rfl).2.1
    (HelmError.external "uninstall: release: not found") rfl (by decide)

/-- C3: when the upgrade mutation returns a non-nil partial release together
with an error, UpdateRelease runs a forced rollback; any rollback failure is
escalated in a combined error, and on rollback success UpdateRelease still
returns the wrapped original update error alongside nil release results. -/
theorem update_partial_failure_rollback
    (env : ActionEnv) (m : ManagerState) (r : Release) (e : HelmError)
    (hu : env.UpgradeRun m.namespaceName m.releaseName = (some r, some e)) :
    (∀ re, env.RollbackRun m.releaseName true = some re →
        UpdateRelease env m =
          ⟨some (m.releaseName, true), none, none,
            some (HelmError.combined "failed update (" e
              ") and failed rollback: " re)⟩)
    ∧ (env.RollbackRun m.releaseName true = none →
        UpdateRelease env m =
          ⟨some (m.releaseName, true), none, none,
            some (HelmError.wrapped "failed to update release" e)⟩) := by
  refine ⟨?_, ?_⟩
  · intro re hr
    unfold UpdateRelease
    rw [hu, hr]
  · intro hr
    unfold UpdateRelease
    rw [hu, hr]

/-- Environment for the C3 witness: upgrade fails with a partial release and
the forced rollback succeeds. -/
def envUpdateRollbackOk : ActionEnv :=
  ⟨fun _ => ([], none), fun _ _ => (none, none), fun _ => (none, none),
   fun _ _ => (none, none),
   fun _ _ => (some demoRel, some (HelmError.external "upgrade hook failed")),
   fun _ _ => (none, none), fun _ _ => none, fun _ => (none, none)⟩

/-- Witness for C3: rollback success does not mask the update failure. -/
theorem update_partial_failure_rollback_witness :
    UpdateRelease envUpdateRollbackOk demoState =
      ⟨some ("demo", true), none, none,
        some (HelmError.wrapped "failed to update release"
          (HelmError.external "upgrade hook failed"))⟩ :=
  (update_partial_failure_rollback envUpdateRollbackOk demoState demoRel
    (HelmError.external "upgrade hook failed") rfl).2 rfl

/-- Environment for C1: empty history, a deployed revision, and a dry-run
candidate rendering the identical manifest. -/
def envEqualManifests : ActionEnv :=
  ⟨fun _ => ([], none), fun _ _ => (none, none), fun _ => (some demoRel, none),
   fun _ _ => (some demoRel, none), fun _ _ => (none, none),
   fun _ _ => (none, none), fun _ _ => none, fun _ => (none, none)⟩

/-- A manager state reused from a pass that had set isUpdateRequired. -/
def staleFlagState : ManagerState := ⟨"demo", "ns", false, true, none⟩

/-- C1 counterexample: Sync never resets isUpdateRequired to false.  With
the deployed and candidate manifests byte-for-byte equal and a reused state
whose flag is already true, the pass succeeds and the flag stays true,
contradicting the claim that the flag then equals false. -/
theorem sync_update_flag_not_reset_counterexample :
    (envEqualManifests.Deployed "demo").1 = some demoRel
    ∧ (envEqualManifests.UpgradeDryRun "ns" "demo").1 = some demoRel
    ∧ staleFlagState.isUpdateRequired = true
    ∧ (Sync envEqualManifests staleFlagState).result =
        GoResult.ok (⟨"demo", "ns", true, true, some demoRel⟩, none)
    ∧ (ManagerState.mk "demo" "ns" true true (some demoRel)).isUpdateRequired
        = true := by
  decide

/-- C1 amended: after a successful Sync pass with a deployed revision and a
successful candidate render, isUpdateRequired equals the disjunction of its
value entering the pass and the manifest-difference predicate; it equals the
manifest-difference predicate alone exactly when the state entered the pass
with the flag false. -/
theorem sync_update_flag_or_of_differ
    (env : ActionEnv) (m : ManagerState) (releases : List Release)
    (d cd : Release)
    (hh : env.History m.releaseName = (releases, none))
    (hp : (pruneReleases env releases).2 = none)
    (hd : env.Deployed m.releaseName = (some d, none))
    (hc : env.UpgradeDryRun m.namespaceName m.releaseName = (some cd, none)) :
    (Sync env m).result =
      GoResult.ok
        ({ m with
            deployedRelease := some d,
            isInstalled := true,
            isUpdateRequired := m.isUpdateRequired || d.manifest != cd.manifest },
          none) := by
  have hsync : Sync env m = syncAfterHistory env m releases := by
    unfold Sync; rw [hh]
  have hgd : getDeployedRelease env m.releaseName = (some d, none) := by
    unfold getDeployedRelease; rw [hd]
  rcases hpr : pruneReleases env releases with ⟨calls, perr⟩
  rw [hpr] at hp
  simp only at hp
  subst hp
  rw [hsync]
  unfold syncAfterHistory
  rw [hpr, hgd, hc]
  by_cases hm : d.manifest != cd.manifest
  · simp [hm]
  · simp only [Bool.not_eq_true] at hm
    simp [hm]

/-- Witness for the amended C1: on a fresh state the flag equals the
comparison, here false for equal manifests. -/
theorem sync_update_flag_or_of_differ_witness :
    (Sync envEqualManifests demoState).result =
      GoResult.ok
        ({ demoState with
            deployedRelease := some demoRel,
            isInstalled := true,
            isUpdateRequired :=
              demoState.isUpdateRequired || demoRel.manifest != demoRel.manifest },
          none) :=
  sync_update_flag_or_of_differ envEqualManifests demoState [] demoRel demoRel
    rfl rfl rfl rfl

/-- A delete outcome the cleanup loop tolerates: success, or a failure that
is a `notFoundErr`. -/
def deleteBenign (env : ActionEnv) (rel : Release) : Prop :=
  (env.Delete rel.name rel.version).2 = none
  ∨ notFoundErr (env.Delete rel.name rel.version).2 = true

/-- When every delete of a non-deployed revision is benign, the cleanup loop
issues exactly one Delete per non-deployed revision, in history order, and
reports no error. -/
theorem pruneReleases_all_benign (env : ActionEnv) :
    ∀ releases : List Release,
      (∀ r ∈ releases, nonDeployed r = true → deleteBenign env r) →
      pruneReleases env releases =
        ((releases.filter nonDeployed).map (fun r => (r.name, r.version)), none) := by
  intro releases
  induction releases with
  | nil => intro _; rfl
  | cons rel rest ih =>
    intro hben
    have hrest := ih (fun r hr h => hben r (List.mem_cons_of_mem _ hr) h)
    simp only [pruneReleases]
    by_cases hnd : nonDeployed rel
    · rcases hdel : env.Delete rel.name rel.version with ⟨x, derr⟩
      have hb := hben rel (List.mem_cons_self _ _) hnd
      unfold deleteBenign at hb
      rw [hdel] at hb
      cases derr with
      | none => simp [hnd, hrest, List.filter_cons]
      | some e =>
        have hnf : notFoundErr (some e) = true := by
          rcases hb with hb | hb
          · exact absurd hb (by simp)
          · exact hb
        simp [hnd, hnf, hrest, List.filter_cons]
    · simp only [Bool.not_eq_true] at hnd
      simp [hnd, hrest, List.filter_cons]

/-- When the deletes of the non-deployed revisions of a prefix are benign
and the next non-deployed revision's delete fails with an error that is not
a `notFoundErr`, the cleanup loop stops with that error wrapped. -/
theorem pruneReleases_abort (env : ActionEnv) :
    ∀ (pre : List Release) (r : Release) (post : List Release) (de : HelmError),
      (∀ q ∈ pre, nonDeployed q = true → deleteBenign env q) →
      nonDeployed r = true →
      (env.Delete r.name r.version).2 = some de →
      notFoundErr (some de) = false →
      (pruneReleases env (pre ++ r :: post)).2 =
        some (HelmError.wrapped "failed to delete stale release version" de) := by
  intro pre
  induction pre with
  | nil =>
    intro r post de _ hnd hdel hnf
    simp only [List.nil_append, pruneReleases]
    rcases hd2 : env.Delete r.name r.version with ⟨x, derr⟩
    rw [hd2] at hdel
    simp only at hdel
    subst hdel
    simp [hnd, hnf]
  | cons q rest ih =>
    intro r post de hben hnd hdel hnf
    have hq := hben q (List.mem_cons_self _ _)
    have htail := ih r post de (fun p hp h => hben p (List.mem_cons_of_mem _ hp) h)
      hnd hdel hnf
    simp only [List.cons_append, pruneReleases]
    by_cases hqd : nonDeployed q
    · rcases hd2 : env.Delete q.name q.version with ⟨x, derr⟩
      have hb := hq hqd
      unfold deleteBenign at hb
      rw [hd2] at hb
      cases derr with
      | none => simp [hqd, htail]
      | some e =>
        have hnfq : notFoundErr (some e) = true := by
          rcases hb with hb | hb
          · exact absurd hb (by simp)
          · exact hb
        simp [hqd, hnfq, htail]
    · simp only [Bool.not_eq_true] at hqd
      simp [hqd, htail]

/-- The Delete calls recorded by a Sync pass are exactly those of its
cleanup loop, for any outcome of the later steps. -/
theorem syncAfterHistory_deletes (env : ActionEnv) (m : ManagerState)
    (releases : List Release) :
    (syncAfterHistory env m releases).deletes = (pruneReleases env releases).1 := by
  unfold syncAfterHistory
  rcases hpr : pruneReleases env releases with ⟨calls, perr⟩
  cases perr with
  | some e => rfl
  | none =>
    rcases hgd : getDeployedRelease env m.releaseName with ⟨dr, derr⟩
    cases derr with
    | some e => by_cases he : errorsIsReleaseNotFound e <;> simp [he]
    | none =>
      rcases hdry : env.UpgradeDryRun m.namespaceName m.releaseName with ⟨cand, cerr⟩
      cases cerr with
      | some e => rfl
      | none => cases dr <;> cases cand <;> rfl

/-- C4: during a Sync pass over a fetched history, when every delete of a
non-deployed revision is benign, a storage Delete is issued for exactly
every revision whose (present) status is not deployed, in order, with
not-found delete failures ignored and the loop reporting no error; and when
the first failing delete carries an error that is not a not-found condition,
Sync aborts the pass, returning that error wrapped with the unchanged state
and without attempting the candidate dry-run. -/
theorem sync_prunes_non_deployed_revisions
    (env : ActionEnv) (m : ManagerState) (releases : List Release)
    (hh : env.History m.releaseName = (releases, none)) :
    ((∀ r ∈ releases, nonDeployed r = true → deleteBenign env r) →
        (Sync env m).deletes =
          (releases.filter nonDeployed).map (fun r => (r.name, r.version))
        ∧ (pruneReleases env releases).2 = none)
    ∧ (∀ pre r post de, releases = pre ++ r :: post →
        (∀ q ∈ pre, nonDeployed q = true → deleteBenign env q) →
        nonDeployed r = true →
        (env.Delete r.name r.version).2 = some de →
        notFoundErr (some de) = false →
        (Sync env m).result =
          GoResult.ok
            (m, some (HelmError.wrapped "failed to delete stale release version" de))
        ∧ (Sync env m).dryRunCalled = false) := by
  have hsync : Sync env m = syncAfterHistory env m releases := by
    unfold Sync; rw [hh]
  refine ⟨?_, ?_⟩
  · intro hben
    have h1 := pruneReleases_all_benign env releases hben
    refine ⟨?_, ?_⟩
    · rw [hsync, syncAfterHistory_deletes, h1]
    · rw [h1]
  · intro pre r post de hsplit hben hnd hdel hnf
    subst hsplit
    have h2 := pruneReleases_abort env pre r post de hben hnd hdel hnf
    rw [hsync]
    unfold syncAfterHistory
    rcases hpr : pruneReleases env (pre ++ r :: post) with ⟨calls, perr⟩
    rw [hpr] at h2
    simp only at h2
    subst h2
    exact ⟨rfl, rfl⟩

/-- A failed revision of release "demo". -/
def failedRel : Release := ⟨"demo", 2, "manifest-b", some ⟨Status.failed⟩⟩

/-- Environment for the C4 witness: history holds a failed and a deployed
revision; deletes succeed. -/
def envPrune : ActionEnv :=
  ⟨fun _ => ([failedRel, demoRel], none), fun _ _ => (none, none),
   fun _ => (some demoRel, none), fun _ _ => (some demoRel, none),
   fun _ _ => (none, none), fun _ _ => (none, none), fun _ _ => none,
   fun _ => (none, none)⟩

/-- Witness for C4: exactly the failed revision is deleted. -/
theorem sync_prunes_non_deployed_revisions_witness :
    (Sync envPrune demoState).deletes =
      ([failedRel, demoRel].filter nonDeployed).map (fun r => (r.name, r.version))
    ∧ (pruneReleases envPrune [failedRel, demoRel]).2 = none :=
  (sync_prunes_non_deployed_revisions envPrune demoState [failedRel, demoRel]
    rfl).1 (fun _ _ _ => Or.inl rfl)

/-- C5: when the history fetch and pruning pass and the store reports that
no deployed revision exists (an error whose text contains "has no deployed
releases"), Sync returns the unchanged state and nil error — so a state
entering with isInstalled=false still reports isInstalled=false — and the
candidate dry-run render is never attempted. -/
theorem sync_no_deployed_revision_returns_nil
    (env : ActionEnv) (m : ManagerState) (releases : List Release) (e : HelmError)
    (hh : env.History m.releaseName = (releases, none))
    (hp : (pruneReleases env releases).2 = none)
    (hd : (env.Deployed m.releaseName).2 = some e)
    (he : strContains e.text "has no deployed releases" = true)
    (hm : m.isInstalled = false) :
    (Sync env m).result = GoResult.ok (m, none)
    ∧ (Sync env m).dryRunCalled = false
    ∧ m.isInstalled = false := by
  have hsync : Sync env m = syncAfterHistory env m releases := by
    unfold Sync; rw [hh]
  have hgd : getDeployedRelease env m.releaseName =
      (none, some HelmError.releaseNotFound) := by
    unfold getDeployedRelease
    rcases hdq : env.Deployed m.releaseName with ⟨x, derr⟩
    rw [hdq] at hd
    simp only at hd
    subst hd
    simp [he]
  rcases hpr : pruneReleases env releases with ⟨calls, perr⟩
  rw [hpr] at hp
  simp only at hp
  subst hp
  rw [hsync]
  unfold syncAfterHistory
  rw [hpr, hgd]
  exact ⟨rfl, rfl, hm⟩

/-- Environment for the C5 witness: one failed revision, pruned
successfully, and a store reporting no deployed releases. -/
def envNoDeployed : ActionEnv :=
  ⟨fun _ => ([failedRel], none), fun _ _ => (none, none),
   fun _ => (none, some (HelmError.external "\"demo\" has no deployed releases")),
   fun _ _ => (none, none), fun _ _ => (none, none), fun _ _ => (none, none),
   fun _ _ => none, fun _ => (none, none)⟩

/-- Witness for C5 on a history holding only a failed revision. -/
theorem sync_no_deployed_revision_returns_nil_witness :
    (Sync envNoDeployed demoState).result = GoResult.ok (demoState, none)
    ∧ (Sync envNoDeployed demoState).dryRunCalled = false
    ∧ demoState.isInstalled = false :=
  sync_no_deployed_revision_returns_nil envNoDeployed demoState [failedRel]
    (HelmError.external "\"demo\" has no deployed releases") rfl rfl rfl
    (by decide) rfl

/-- C9: an error is classified as a not-found condition exactly when its
message text contains the substring "not found"; consequently a history
fetch error, a revision delete error, or a compensating-uninstall error
whose text contains "not found" is treated as expected control flow:
Sync proceeds as if the history fetch had succeeded, the cleanup loop
records the delete and continues, and InstallRelease returns only the
wrapped original install error. -/
theorem notfound_substring_classification :
    (∀ e : HelmError, notFoundErr (some e) = strContains e.text "not found")
    ∧ (∀ (env : ActionEnv) (m : ManagerState) (releases : List Release)
        (e : HelmError),
        env.History m.releaseName = (releases, some e) →
        strContains e.text "not found" = true →
        Sync env m = syncAfterHistory env m releases)
    ∧ (∀ (env : ActionEnv) (rel : Release) (rest : List Release)
        (x : Option Release) (de : HelmError),
        env.Delete rel.name rel.version = (x, some de) →
        strContains de.text "not found" = true →
        nonDeployed rel = true →
        pruneReleases env (rel :: rest) =
          ((rel.name, rel.version) :: (pruneReleases env rest).1,
            (pruneReleases env rest).2))
    ∧ (∀ (env : ActionEnv) (m : ManagerState) (r : Release) (e ue : HelmError)
        (x : Option UninstallReleaseResponse),
        env.InstallRun m.namespaceName m.releaseName = (some r, some e) →
        env.UninstallRun m.releaseName = (x, some ue) →
        strContains ue.text "not found" = true →
        InstallRelease env m =
          ⟨true, none, some (HelmError.wrapped "failed to install release" e)⟩) := by
  refine ⟨fun _ => rfl, ?_, ?_, ?_⟩
  · intro env m releases e hh hc
    have hnf : notFoundErr (some e) = true := hc
    unfold Sync
    rw [hh]
    simp [hnf]
  · intro env rel rest x de hdel hc hnd
    have hnf : notFoundErr (some de) = true := hc
    simp only [pruneReleases]
    rw [hdel]
    simp [hnd, hnf]
  · intro env m r e ue x hi hu hc
    have hnf : notFoundErr (some ue) = true := hc
    have h2 : (env.UninstallRun m.releaseName).2 = some ue := by rw [hu]
    unfold InstallRelease
    rw [hi, h2]
    simp [hnf]

/-- Witness for C9: a compensating-uninstall error mentioning "not found" is
suppressed by InstallRelease. -/
theorem notfound_substring_classification_witness :
    InstallRelease envInstallNotFound demoState =
      ⟨true, none,
        some (HelmError.wrapped "failed to install release"
          (HelmError.external "render failed"))⟩ :=
  notfound_substring_classification.2.2.2 envInstallNotFound demoState demoRel
    (HelmError.external "render failed")
    (HelmError.external "uninstall: release: not found") none rfl rfl (by decide)

/-- When the full jsonpatch diff holds only "remove" operations, the filter
in generatePatch keeps nothing and the function returns a nil patch and a
nil error. -/
theorem generatePatch_only_removes {Obj : Type} (lib : JsonLib Obj)
    (existing expected : Option Obj) (ej xj : String)
    (ops : List JsonPatchOperation)
    (h1 : lib.marshalObj existing = Except.ok ej)
    (h2 : lib.marshalObj expected = Except.ok xj)
    (h3 : lib.createPatch ej xj = Except.ok ops)
    (h4 : ∀ op ∈ ops, op.operation = "remove") :
    generatePatch lib existing expected = (none, none) := by
  have hfil : ops.filter (fun op => op.operation != "remove") = [] := by
    rw [List.filter_eq_nil_iff]
    intro op hop
    simp [h4 op hop]
  unfold generatePatch
  simp [h1, h2, h3, hfil]

/-- C6: for objects whose full structural diff holds only "remove"
operations, generatePatch returns a nil patch and no error; and in general
every returned patch is the serialization of an operation list holding no
"remove" operation. -/
theorem computePatch_nil_on_remove_only_diff {Obj : Type} (lib : JsonLib Obj)
    (existing expected : Option Obj) (ej xj : String)
    (ops : List JsonPatchOperation)
    (h1 : lib.marshalObj existing = Except.ok ej)
    (h2 : lib.marshalObj expected = Except.ok xj)
    (h3 : lib.createPatch ej xj = Except.ok ops)
    (h4 : ∀ op ∈ ops, op.operation = "remove") :
    generatePatch lib existing expected = (none, none)
    ∧ ∀ (a b : Option Obj) (bytes : String),
        (generatePatch lib a b).1 = some bytes →
        ∃ kept : List JsonPatchOperation,
          lib.marshalOps kept = Except.ok bytes
          ∧ ∀ op ∈ kept, op.operation ≠ "remove" := by
  refine ⟨generatePatch_only_removes lib existing expected ej xj ops h1 h2 h3 h4, ?_⟩
  intro a b bytes hsome
  unfold generatePatch at hsome
  cases hma : lib.marshalObj a with
  | error err => simp [hma] at hsome
  | ok aj =>
    cases hmb : lib.marshalObj b with
    | error err => simp [hma, hmb] at hsome
    | ok bj =>
      cases hcp : lib.createPatch aj bj with
      | error err => simp [hma, hmb, hcp] at hsome
      | ok ops2 =>
        simp only [hma, hmb, hcp] at hsome
        by_cases hlen : (ops2.filter (fun op => op.operation != "remove")).length == 0
        · simp [hlen] at hsome
        · simp only [hlen, if_false, Bool.false_eq_true, if_neg] at hsome
          cases hmo : lib.marshalOps
              (ops2.filter (fun op => op.operation != "remove")) with
          | error err => simp [hmo] at hsome
          | ok bytes2 =>
            simp only [hmo] at hsome
            simp only [Option.some.injEq] at hsome
            refine ⟨ops2.filter (fun op => op.operation != "remove"), ?_, ?_⟩
            · rw [hmo, hsome]
            · intro op hop
              have hmem := List.mem_filter.1 hop
              simpa using hmem.2

/-- A concrete serialization library over string objects whose diff holds a
single "remove" operation. -/
def demoLib : JsonLib String :=
  ⟨fun o => Except.ok (match o with | some s => s | none => "null"),
   fun _ _ => Except.ok [⟨"remove", "/metadata/uid", none⟩],
   fun _ => Except.ok "[]"⟩

/-- Witness for C6 at a remove-only diff. -/
theorem computePatch_nil_on_remove_only_diff_witness :
    generatePatch demoLib (some "existing-object") (some "expected-object") =
      (none, none) :=
  (computePatch_nil_on_remove_only_diff demoLib (some "existing-object")
    (some "expected-object") "existing-object" "expected-object"
    [⟨"remove", "/metadata/uid", none⟩] rfl rfl rfl (by decide)).1

/-- When every live fetch succeeds and every per-object diff holds only
"remove" operations, the reconcile walk issues no Create and no Patch call
and reports no error. -/
theorem visitInfos_converged {Obj : Type} (env : KubeEnv Obj) :
    ∀ infos : List (ResourceInfo Obj),
      (∀ i ∈ infos, (env.get i.namespaceName i.name).2 = none) →
      (∀ i ∈ infos, ∃ ej xj ops,
          env.jsonLib.marshalObj (env.get i.namespaceName i.name).1 = Except.ok ej
          ∧ env.jsonLib.marshalObj i.object = Except.ok xj
          ∧ env.jsonLib.createPatch ej xj = Except.ok ops
          ∧ ∀ op ∈ ops, op.operation = "remove") →
      visitInfos env infos = ⟨[], [], none⟩ := by
  intro infos
  induction infos with
  | nil => intro _ _; rfl
  | cons i rest ih =>
    intro hget hdiff
    have hg := hget i (List.mem_cons_self _ _)
    obtain ⟨ej, xj, ops, hm1, hm2, hm3, hm4⟩ := hdiff i (List.mem_cons_self _ _)
    have hgp : generatePatch env.jsonLib (env.get i.namespaceName i.name).1
        i.object = (none, none) :=
      generatePatch_only_removes _ _ _ _ _ _ hm1 hm2 hm3 hm4
    have htail := ih (fun j hj => hget j (List.mem_cons_of_mem _ hj))
      (fun j hj => hdiff j (List.mem_cons_of_mem _ hj))
    simp only [visitInfos]
    simp [hg, hgp, htail, apierrorsIsNotFound]

/-- C7: Reconcile is idempotent on a converged state: when the manifest
builds, every object of the manifest exists live, its fetch succeeds, and
its structural diff against the expected object holds only "remove"
operations (equality or platform-added fields only), reconcileRelease
issues zero Create calls and zero Patch calls and returns no error, the nil
patch short-circuiting before any mutation request. -/
theorem reconcile_converged_issues_no_calls {Obj : Type} (env : KubeEnv Obj)
    (manifest : String) (infos : List (ResourceInfo Obj))
    (hb : env.build manifest = Except.ok infos)
    (_hlive : ∀ i ∈ infos, (env.get i.namespaceName i.name).1.isSome = true)
    (hget : ∀ i ∈ infos, (env.get i.namespaceName i.name).2 = none)
    (hdiff : ∀ i ∈ infos, ∃ ej xj ops,
        env.jsonLib.marshalObj (env.get i.namespaceName i.name).1 = Except.ok ej
        ∧ env.jsonLib.marshalObj i.object = Except.ok xj
        ∧ env.jsonLib.createPatch ej xj = Except.ok ops
        ∧ ∀ op ∈ ops, op.operation = "remove") :
    reconcileRelease env manifest = ⟨[], [], none⟩ := by
  unfold reconcileRelease
  rw [hb]
  exact visitInfos_converged env infos hget hdiff

/-- A concrete cluster environment over string objects: one live object and
a remove-only diff; create and patch would fail loudly if ever called. -/
def demoKubeEnv : KubeEnv String :=
  ⟨fun _ => Except.ok [⟨"ns", "cm", some "expected-object"⟩],
   fun _ _ => (some "live-object", none),
   fun _ _ _ => some (HelmError.external "create must not be called"),
   fun _ _ _ => some (HelmError.external "patch must not be called"),
   demoLib⟩

/-- Witness for C7 on the converged single-object manifest. -/
theorem reconcile_converged_issues_no_calls_witness :
    reconcileRelease demoKubeEnv "manifest-text" = ⟨[], [], none⟩ :=
  reconcile_converged_issues_no_calls demoKubeEnv "manifest-text"
    [⟨"ns", "cm", some "expected-object"⟩] rfl
    (fun _ _ => rfl) (fun _ _ => rfl)
    (fun i hi => by
      rw [List.mem_singleton] at hi
      subst hi
      exact ⟨"live-object", "expected-object", [⟨"remove", "/metadata/uid", none⟩],
        rfl, rfl, rfl, by decide⟩)

end HelmRelease
